import Mathlib

/-!
Verification model of the FilePacker self-extracting installer builder
(the pack-files script) and of the extractor program it generates.

Build-time paths handled by the Archive Builder are modeled as lists of
path components resolved against an explicit filesystem tree; paths inside
the generated extractor are modeled as plain Windows path strings, since
the generated program only joins, trims and compares them.  Every
observable effect a claim speaks about (entries added, progress lines,
subprocess tiers taken, the staged temp copy's deletion, the process exit
code) is an explicit field of the corresponding result value.
-/

/-! ## String helpers modelling the JavaScript primitives the code uses -/

/-- Whitespace as trimmed by JavaScript trim, restricted to the kinds the
program actually meets (space, tab, CR, LF). -/
def isWS (c : Char) : Bool :=
  c == ' ' || c == '\t' || c == '\r' || c == '\n'

/-- JavaScript string trim. -/
def trimS (s : String) : String :=
  ⟨((s.data.dropWhile isWS).reverse.dropWhile isWS).reverse⟩

/-- Whether the first character list is an initial run of the second. -/
def leadsWith : List Char → List Char → Bool
  | [], _ => true
  | _ :: _, [] => false
  | p :: ps, c :: cs => p == c && leadsWith ps cs

/-- JavaScript replace with a string pattern, on character lists: replace
the first occurrence only, leave the text unchanged when the pattern is
absent. -/
def replaceFirstAux (pat rep : List Char) : List Char → List Char
  | [] => []
  | c :: cs =>
    if leadsWith pat (c :: cs) then rep ++ (c :: cs).drop pat.length
    else c :: replaceFirstAux pat rep cs

/-- JavaScript replace with a string pattern (first occurrence only). -/
def replaceFirst (s pat rep : String) : String :=
  ⟨replaceFirstAux pat.data rep.data s.data⟩

/-- A Windows path separator as treated by the win32 path module. -/
def winSep (c : Char) : Bool := c == '\\' || c == '/'

/-- Node path basename semantics: the final component, ignoring trailing
separators. -/
def baseNameStr (s : String) : String :=
  ⟨((s.data.reverse.dropWhile winSep).takeWhile (fun c => !winSep c)).reverse⟩

/-- Split a character list at its last dot, returning the parts before and
from that dot on, or nothing when there is no dot. -/
def splitLastDot : List Char → Option (List Char × List Char)
  | [] => none
  | c :: cs =>
    match splitLastDot cs with
    | some (pre, suf) => some (c :: pre, suf)
    | none => if c == '.' then some ([], c :: cs) else none

/-- Node path parse name field: the basename with its final extension
removed; a leading dot that is the only dot (a dotfile) is kept. -/
def nodeParseName (s : String) : String :=
  let b := (baseNameStr s).data
  match splitLastDot b with
  | none => ⟨b⟩
  | some ([], _) => ⟨b⟩
  | some (pre, _) => ⟨pre⟩

/-- path.join of two Windows path segments. -/
def winJoin (a b : String) : String := a ++ "\\" ++ b

/-! ## Build-time filesystem model

A node is a file or a directory; a directory's named children are carried
on the constructor spine (dirNil / dirCons), so every function below is
plain structural recursion and reduces inside the kernel. -/

inductive FSNode where
  | file : FSNode
  | dirNil : FSNode
  | dirCons (childName : String) (child : FSNode) (rest : FSNode) : FSNode

/-- The child of a directory node under a given name (none on files). -/
def findChild (nm : String) : FSNode → Option FSNode
  | .dirCons childName child rest =>
    if childName == nm then some child else findChild nm rest
  | _ => none

/-- Resolve a component path against a node. -/
def lookupFS : List String → FSNode → Option FSNode
  | [], n => some n
  | nm :: rest, n =>
    match findChild nm n with
    | some c => lookupFS rest c
    | none => none

/-- The existsSync probe of the build script, on a listed path. -/
def existsAt (root : FSNode) (p : List String) : Bool :=
  (lookupFS p root).isSome

/-- path.basename of a listed component path. -/
def basenameP (p : List String) : String := (p.getLast?).getD ""

/-- The relative component paths of every file in a subtree: what the
archiver library's directory call walks when given a folder. -/
def collectFiles : FSNode → List (List String)
  | .file => [[]]
  | .dirNil => []
  | .dirCons childName child rest =>
    (collectFiles child).map (fun rel => childName :: rel) ++ collectFiles rest

/-- The files under a listed folder path, as relative component paths. -/
def subtreeFiles (root : FSNode) (d : List String) : List (List String) :=
  match lookupFS d root with
  | some n => collectFiles n
  | none => []

/-! ## Archive Builder (createArchive, part_001 lines 79-115) -/

/-- One archive entry: its relative name inside the archive and the listed
on-disk source path it came from (the spec's ArchiveEntry). -/
structure AEntry where
  entryName : List String
  src : List String
deriving DecidableEq

/-- The archive being assembled together with the progress lines printed so
far (the builder's observability stream, emoji prefixes elided). -/
structure ArchiveState where
  entries : List AEntry
  log : List String
deriving DecidableEq

/-- The files.forEach body of createArchive (lines 96-102): an existing
listed file is added as a single entry named by its basename and a progress
line is printed; a missing one is skipped with no entry and no line. -/
def addFile (root : FSNode) (st : ArchiveState) (f : List String) : ArchiveState :=
  if existsAt root f then
    ⟨st.entries ++ [⟨[basenameP f], f⟩],
     st.log ++ ["Added file: " ++ basenameP f]⟩
  else st

/-- The folders.forEach body of createArchive (lines 105-111): an existing
listed folder is added through the archiver directory call, which appends
every contained file under the folder's basename; a missing folder is
skipped with no entry and no line. -/
def addDirectory (root : FSNode) (st : ArchiveState) (d : List String) : ArchiveState :=
  if existsAt root d then
    ⟨st.entries ++ (subtreeFiles root d).map (fun rel => ⟨basenameP d :: rel, d ++ rel⟩),
     st.log ++ ["Added folder: " ++ basenameP d]⟩
  else st

/-- createArchive: add each listed file, then each listed folder, to a
fresh archive. -/
def createArchive (root : FSNode) (files folders : List (List String)) : ArchiveState :=
  folders.foldl (addDirectory root) (files.foldl (addFile root) ⟨[], []⟩)

/-- The entries the claims say one listed file path contributes: one entry
at archive root named by the file's basename when the path exists, nothing
otherwise. -/
def fileEntriesOf (root : FSNode) (f : List String) : List AEntry :=
  if existsAt root f then [⟨[basenameP f], f⟩] else []

/-- The entries the claims say one listed folder path contributes: every
contained file, rooted under the folder's basename with its relative
structure preserved, when the path exists; nothing otherwise. -/
def folderEntriesOf (root : FSNode) (d : List String) : List AEntry :=
  if existsAt root d then
    (subtreeFiles root d).map (fun rel => ⟨basenameP d :: rel, d ++ rel⟩)
  else []

/-! ## Build-time naming (packFiles, part_001 lines 50-68) -/

/-- The archive filename computed at line 53 and baked into the generated
extractor source. -/
def archiveFileNameFor (outputFileName : String) : String :=
  nodeParseName outputFileName ++ "_archive.zip"

/-- The filename the sidecar archive is copied to in the output directory,
next to the executable (lines 64-67). -/
def sidecarArchiveNameFor (outputFileName : String) : String :=
  nodeParseName outputFileName ++ "_archive.zip"

/-- generateExtractor (line 128) embeds its archiveFileName parameter
verbatim as the generated program's expected-sidecar constant. -/
def embeddedArchiveName (archiveFileName : String) : String := archiveFileName

/-! ## The generated extractor's module bindings -/

/-- The modules the generated extractor source requires (the template at
part_001 lines 122-125): fs, path, os and child_process only. -/
def generatedRequires : List String := ["fs", "path", "os", "child_process"]

/-- The modules the build script itself requires (part_001 lines 8-13);
adm-zip is imported there but never written into the generated template. -/
def packerScriptRequires : List String :=
  ["fs", "path", "child_process", "os", "archiver", "adm-zip"]

/-- Whether an AdmZip binding exists in the generated program: the template
declares none, so the typeof guard at line 493 sees a defined AdmZip
exactly when some emitted require introduced one. -/
def admZipDefinedInExtractor : Bool := generatedRequires.contains "adm-zip"

/-! ## Directory Selection Strategy Chain (generated code, lines 144-410) -/

/-- The environment one run of the generated extractor's directory-selection
chain observes: the probes and subprocess outcomes the code branches on. -/
structure SelEnv where
  homedir : String
  userProfile : String
  dialogResult : Option String
  pathExists : String → Bool
  batchOk : Bool
  resultFileWritten : Bool
  promptInput : String

/-- showNativeFolderDialog (lines 169-303): the VBS folder dialog's trimmed
stdout is returned only when it is non-empty and exists on disk; a thrown
subprocess, an empty result or a non-existent path all yield null. -/
def showNativeFolderDialog (env : SelEnv) : Option String :=
  match env.dialogResult with
  | none => none
  | some s =>
    let result := trimS s
    if 0 < result.length then
      if env.pathExists result then some result else none
    else none

/-- What the generated batch file writes to its result file (lines
335-345): the typed line, or the user-profile Desktop path when the typed
line is empty. -/
def batchSelectedPath (env : SelEnv) : String :=
  if env.promptInput = "" then env.userProfile ++ "\\Desktop" else env.promptInput

/-- The ordered conventional-roots probe list of getSmartDefaultPath
(lines 389-397). -/
def smartPathCandidates (env : SelEnv) : List String :=
  [env.homedir ++ "\\Desktop",
   "C:\\Program Files (x86)\\Steam\\steamapps\\common",
   "C:\\Program Files\\Steam\\steamapps\\common",
   "C:\\Program Files (x86)\\Epic Games",
   "C:\\Program Files\\Epic Games",
   "C:\\Games",
   env.homedir ++ "\\Documents\\My Games"]

/-- getSmartDefaultPath (lines 387-410): the first conventional root that
exists, else the Desktop path unconditionally. -/
def getSmartDefaultPath (env : SelEnv) : String :=
  ((smartPathCandidates env).find? env.pathExists).getD (env.homedir ++ "\\Desktop")

/-- getInteractiveInput (lines 305-385): run the batch prompt; when its
result file exists and holds a non-empty trimmed line, return it with no
existence check; on an empty result, a missing result file or a thrown
batch, fall to the smart default. -/
def getInteractiveInput (env : SelEnv) : String :=
  if env.batchOk then
    if env.resultFileWritten then
      let result := trimS (batchSelectedPath env)
      if 0 < result.length then result else getSmartDefaultPath env
    else getSmartDefaultPath env
  else getSmartDefaultPath env

/-- selectDirectory (lines 144-167): the native dialog first; on a null or
thrown dialog, the interactive text prompt. -/
def selectDirectory (env : SelEnv) : String :=
  match showNativeFolderDialog env with
  | some p => p
  | none => getInteractiveInput env

/-! ## Archive resolution (extractFiles, lines 430-469) -/

/-- The filesystem the resolution search probes. -/
structure ResolveEnv where
  exeDir : String
  cwd : String
  pathExists : String → Bool

/-- The alternate filename guesses (lines 447-453), derived from the
expected name by first-occurrence replacement. -/
def possibleNames (archiveFileName : String) : List String :=
  [archiveFileName,
   replaceFirst archiveFileName "_archive.zip" ".zip",
   replaceFirst archiveFileName "_archive.zip" "_files.zip",
   "files.zip",
   "archive.zip"]

/-- The archive search (lines 430-469): the expected name next to the
executable, then in the working directory, then each alternate guess next
to the executable; the not-found error carries the two expected-name paths
its message lists as tried. -/
def resolveArchive (env : ResolveEnv) (archiveFileName : String) :
    Except (List String) String :=
  let p0 := winJoin env.exeDir archiveFileName
  if env.pathExists p0 then .ok p0
  else
    let p1 := winJoin env.cwd archiveFileName
    if env.pathExists p1 then .ok p1
    else
      match (possibleNames archiveFileName).find?
          (fun nm => env.pathExists (winJoin env.exeDir nm)) with
      | some nm => .ok (winJoin env.exeDir nm)
      | none => .error [p0, p1]

/-- The fixed candidate order the claim describes: (a) the executable's
directory under the expected name, (b) the working directory under the
expected name, (c) the alternate guesses next to the executable. -/
def resolutionCandidates (env : ResolveEnv) (archiveFileName : String) : List String :=
  winJoin env.exeDir archiveFileName :: winJoin env.cwd archiveFileName ::
    (possibleNames archiveFileName).map (winJoin env.exeDir)

/-! ## The extraction run from the staging copy on (extractFiles, lines 472-687) -/

/-- Outcomes of the external steps one post-staging run can meet. -/
structure RunEnv where
  archiveValid : Bool
  fileEntryCount : Nat
  simplePsOk : Bool
  detailedPsOk : Bool
  fallbackCopyOk : Bool
  dirItemCount : Nat
deriving DecidableEq

/-- The observable outcome of one post-staging run. -/
structure RunResult where
  primaryExtracted : Nat
  usedPsFallback : Bool
  extractedCount : Nat
  tempDeleted : Bool
  copiedArchiveToTarget : Bool
  manualInstruction : Bool
  successMessage : Bool
  exitCode : Nat
deriving DecidableEq

/-- extractFiles from the staging copy on (lines 479-687), parameterized by
whether an AdmZip binding exists in the running program.  The in-process
loop runs only behind the typeof AdmZip guard and on an archive that
parses; any error there is caught and sent to the two PowerShell subprocess
attempts; when those also fail, the catch at line 663 copies the staged
archive into the target and prints the manual-extraction instructions,
after which control falls through to the success banner and the exit-0
timer at lines 674-681; only an error escaping that catch reaches the outer
handler and exit 1.  The staged temp copy is unlinked solely by the cleanup
at lines 658-661, which is inside the successful-extraction path. -/
def extractFilesAfterStaging (admZipDefined : Bool) (env : RunEnv) : RunResult :=
  if admZipDefined && env.archiveValid then
    ⟨env.fileEntryCount, false, env.fileEntryCount, true, false, false, true, 0⟩
  else
    if env.simplePsOk then
      ⟨0, true, env.dirItemCount, true, false, false, true, 0⟩
    else if env.detailedPsOk then
      ⟨0, true, env.dirItemCount, true, false, false, true, 0⟩
    else
      if env.fallbackCopyOk then
        ⟨0, true, 0, false, true, true, true, 0⟩
      else
        ⟨0, true, 0, false, false, false, false, 1⟩

/-- One post-staging run of the extractor the build actually generates: the
AdmZip binding question is settled by the generated source's require list. -/
def runGeneratedExtractor (env : RunEnv) : RunResult :=
  extractFilesAfterStaging admZipDefinedInExtractor env

/-! ## Theorems -/

/-- A tiny build-time filesystem holding one real file. -/
def demoFS : FSNode := .dirCons "present.txt" .file .dirNil

/-- Claim C1, counterexample: with the non-existent path missing.txt as the
only listed file, createArchive adds no entry at all and prints no line at
all — the missing path is silently skipped, not warned about and added, so
nothing is left to make the archive write fail. -/
theorem createArchive_missing_path_counterexample :
    (createArchive demoFS [["missing.txt"]] []).entries = [] ∧
    (createArchive demoFS [["missing.txt"]] []).log = [] := by
  constructor <;> decide

/-- Claim C1 (amended): a listed path that does not exist at build time is
silently skipped by createArchive: appending it to either list of the
request changes neither the entries nor the printed lines, so no warning is
emitted, no entry is added, and the archive write cannot fail on its
account. -/
theorem createArchive_missing_path_skipped
    (root : FSNode) (files folders : List (List String)) (p : List String)
    (hp : existsAt root p = false) :
    createArchive root (files ++ [p]) folders = createArchive root files folders ∧
    createArchive root files (folders ++ [p]) = createArchive root files folders := by
  constructor
  · unfold createArchive
    rw [List.foldl_append]
    simp [addFile, hp]
  · unfold createArchive
    rw [List.foldl_append]
    simp [addDirectory, hp]

/-- Claim C1, witness: the amended theorem at the concrete filesystem with
present.txt on disk and missing.txt absent. -/
theorem createArchive_missing_path_skipped_witness :
    createArchive demoFS [["present.txt"], ["missing.txt"]] [] =
      createArchive demoFS [["present.txt"]] [] :=
  (createArchive_missing_path_skipped demoFS [["present.txt"]] [] ["missing.txt"]
    (by decide)).1

/-- Claim C2: the generated extractor source requires fs, path, os and
child_process but not adm-zip, even though the build script itself imports
adm-zip; so in the generated program the typeof AdmZip guard always fails,
the in-process primary tier never extracts a single entry, and the
PowerShell subprocess fallback is invoked on every run — runs on perfectly
valid staged archives included. -/
theorem generated_extractor_primary_tier_never_runs :
    admZipDefinedInExtractor = false ∧
    packerScriptRequires.contains "adm-zip" = true ∧
    ∀ env : RunEnv, (runGeneratedExtractor env).primaryExtracted = 0 ∧
      (runGeneratedExtractor env).usedPsFallback = true := by
  refine ⟨by decide, by decide, fun env => ?_⟩
  obtain ⟨av, fc, sp, dp, fb, dc⟩ := env
  have h : admZipDefinedInExtractor = false := by decide
  unfold runGeneratedExtractor
  rw [h]
  cases sp <;> cases dp <;> cases fb <;>
    simp [extractFilesAfterStaging]

/-- Claim C3, counterexample: a run that reaches staging and then loses
both extraction tiers (both PowerShell attempts fail, AdmZip being absent)
ends with the staged temp copy still on disk — the cleanup step is not on
this control path. -/
theorem staged_temp_left_behind_counterexample :
    (runGeneratedExtractor ⟨true, 3, false, false, true, 0⟩).tempDeleted = false := by
  decide

/-- Claim C3 (amended): the staged temp copy is deleted exactly on the runs
where an extraction tier succeeded (the in-process tier behind an AdmZip
binding on a valid archive, or one of the PowerShell attempts); on the
last-resort-copy path and on the total-failure path the staged temp file is
left in place. -/
theorem staged_temp_deleted_iff_extraction_succeeded
    (admZipDefined : Bool) (env : RunEnv) :
    (extractFilesAfterStaging admZipDefined env).tempDeleted =
      ((admZipDefined && env.archiveValid) || env.simplePsOk || env.detailedPsOk) := by
  obtain ⟨av, fc, sp, dp, fb, dc⟩ := env
  cases admZipDefined <;> cases av <;> cases sp <;> cases dp <;> cases fb <;> rfl

/-- Claim C5, counterexample: when both extraction tiers fail and the
last-resort copy succeeds, the staged archive is delivered to the target
with manual-extraction instructions — but the run then shows the success
banner and exits with code 0, not a failure state. -/
theorem both_tiers_failed_exit_zero_counterexample :
    (runGeneratedExtractor ⟨true, 3, false, false, true, 5⟩).copiedArchiveToTarget = true ∧
    (runGeneratedExtractor ⟨true, 3, false, false, true, 5⟩).manualInstruction = true ∧
    (runGeneratedExtractor ⟨true, 3, false, false, true, 5⟩).successMessage = true ∧
    (runGeneratedExtractor ⟨true, 3, false, false, true, 5⟩).exitCode = 0 := by
  refine ⟨?_, ?_, ?_, ?_⟩ <;> decide

/-- Claim C5 (amended): when both extraction tiers fail and the last-resort
copy succeeds, the extractor copies the staged archive into the chosen
target directory and instructs the user to extract it manually — so data is
not lost — but the run then falls through to the success banner and ends
with exit code 0 rather than a non-zero failure state. -/
theorem both_tiers_failed_copies_archive_but_exits_zero
    (admZipDefined : Bool) (env : RunEnv)
    (h1 : (admZipDefined && env.archiveValid) = false)
    (h2 : env.simplePsOk = false) (h3 : env.detailedPsOk = false)
    (h4 : env.fallbackCopyOk = true) :
    (extractFilesAfterStaging admZipDefined env).copiedArchiveToTarget = true ∧
    (extractFilesAfterStaging admZipDefined env).manualInstruction = true ∧
    (extractFilesAfterStaging admZipDefined env).successMessage = true ∧
    (extractFilesAfterStaging admZipDefined env).exitCode = 0 := by
  unfold extractFilesAfterStaging
  rw [h1, h2, h3, h4]
  exact ⟨rfl, rfl, rfl, rfl⟩

/-- Claim C5, witness: the amended theorem at a concrete total-failure run. -/
theorem both_tiers_failed_witness :
    (extractFilesAfterStaging false ⟨false, 0, false, false, true, 2⟩).copiedArchiveToTarget = true ∧
    (extractFilesAfterStaging false ⟨false, 0, false, false, true, 2⟩).manualInstruction = true ∧
    (extractFilesAfterStaging false ⟨false, 0, false, false, true, 2⟩).successMessage = true ∧
    (extractFilesAfterStaging false ⟨false, 0, false, false, true, 2⟩).exitCode = 0 :=
  both_tiers_failed_copies_archive_but_exits_zero false ⟨false, 0, false, false, true, 2⟩
    rfl rfl rfl rfl

/-- Claim C9: the filename the sidecar archive is copied under and the
filename baked into the generated extractor source are computed by the very
same expression — the output name's stem followed by _archive.zip — so the
two shipped files agree for every build and resolution tier (a) matches
whenever they are kept together. -/
theorem sidecar_name_matches_embedded_name (outputFileName : String) :
    embeddedArchiveName (archiveFileNameFor outputFileName) =
      sidecarArchiveNameFor outputFileName ∧
    archiveFileNameFor outputFileName =
      nodeParseName outputFileName ++ "_archive.zip" :=
  ⟨rfl, rfl⟩

/-- A string with a non-empty suffix appended is non-empty. -/
theorem strlen_append_pos (s t : String) (ht : 0 < t.length) : 0 < (s ++ t).length := by
  cases s
  cases t
  simp [String.length, String.append] at *
  omega

/-- Every conventional root the smart-default tier can return is non-empty,
and so is its unconditional Desktop fallback. -/
theorem getSmartDefaultPath_nonempty (env : SelEnv) :
    0 < (getSmartDefaultPath env).length := by
  unfold getSmartDefaultPath
  cases hf : (smartPathCandidates env).find? env.pathExists with
  | none =>
    simp only [Option.getD_none]
    exact strlen_append_pos _ _ (by decide)
  | some p =>
    simp only [Option.getD_some]
    have hm := List.mem_of_find?_eq_some hf
    simp only [smartPathCandidates, List.mem_cons, List.not_mem_nil, or_false] at hm
    rcases hm with rfl | rfl | rfl | rfl | rfl | rfl | rfl
    · exact strlen_append_pos _ _ (by decide)
    · decide
    · decide
    · decide
    · decide
    · decide
    · exact strlen_append_pos _ _ (by decide)

/-- The text-prompt tier returns either its non-empty trimmed result or a
smart default, and is therefore non-empty. -/
theorem getInteractiveInput_nonempty (env : SelEnv) :
    0 < (getInteractiveInput env).length := by
  have hz : getInteractiveInput env =
      if env.batchOk then
        if env.resultFileWritten then
          if 0 < (trimS (batchSelectedPath env)).length then
            trimS (batchSelectedPath env)
          else getSmartDefaultPath env
        else getSmartDefaultPath env
      else getSmartDefaultPath env := rfl
  rw [hz]
  split_ifs with h1 h2 h3
  · exact h3
  · exact getSmartDefaultPath_nonempty env
  · exact getSmartDefaultPath_nonempty env
  · exact getSmartDefaultPath_nonempty env

/-- A non-null native-dialog result is the dialog's trimmed output, is
non-empty, and exists on disk. -/
theorem dialog_some_spec (env : SelEnv) (p : String)
    (h : showNativeFolderDialog env = some p) :
    0 < p.length ∧ env.pathExists p = true := by
  unfold showNativeFolderDialog at h
  cases hd : env.dialogResult with
  | none => rw [hd] at h; cases h
  | some s =>
    rw [hd] at h
    simp only at h
    split_ifs at h with h1 h2
    · cases h
      exact ⟨h1, h2⟩

/-- Claim C4: whatever the tier outcomes — native dialog unavailable or
failing, text prompt failing or returning nothing, no conventional
installation root existing — the directory-selection chain terminates with
a non-empty path (a string is returned on every branch, so no null or
undefined result is possible, and the returned string is never empty). -/
theorem selectDirectory_never_empty (env : SelEnv) :
    0 < (selectDirectory env).length := by
  unfold selectDirectory
  cases hd : showNativeFolderDialog env with
  | none => exact getInteractiveInput_nonempty env
  | some p => exact (dialog_some_spec env p hd).1

/-- Claim C8, counterexample: with the native dialog unavailable and empty
prompt input, on a machine where the Desktop does not exist but C:\Games
does, the chain returns the batch tier's own user-profile Desktop default,
while the smart-default tier would return C:\Games — the result is not
drawn from the smart-default tier. -/
theorem empty_prompt_not_smart_default_counterexample :
    selectDirectory
        ⟨"C:\\Users\\u", "C:\\Users\\u", none, fun s => s == "C:\\Games",
         true, true, ""⟩ = "C:\\Users\\u\\Desktop" ∧
    getSmartDefaultPath
        ⟨"C:\\Users\\u", "C:\\Users\\u", none, fun s => s == "C:\\Games",
         true, true, ""⟩ = "C:\\Games" ∧
    ("C:\\Users\\u\\Desktop" : String) ≠ "C:\\Games" := by
  refine ⟨?_, ?_, ?_⟩ <;> decide

/-- Claim C8 (amended): when the native-dialog tier is unavailable and the
batch prompt runs, empty input is replaced inside the text-prompt tier by
its own user-profile Desktop default, so the chain terminates with that
non-empty path without drawing from the smart-default tier; and any
non-empty (trim-clean) entered path is returned unconditionally, with no
existence check on it. -/
theorem empty_prompt_gets_batch_desktop_default (env : SelEnv)
    (hd : env.dialogResult = none)
    (hb : env.batchOk = true) (hw : env.resultFileWritten = true)
    (hclean : trimS (batchSelectedPath env) = batchSelectedPath env) :
    selectDirectory env = batchSelectedPath env ∧
    (env.promptInput = "" →
      selectDirectory env = env.userProfile ++ "\\Desktop") ∧
    0 < (selectDirectory env).length := by
  have hstep : selectDirectory env = batchSelectedPath env := by
    unfold selectDirectory showNativeFolderDialog getInteractiveInput
    rw [hd, hb, hw, hclean]
    simp only [if_true]
    split_ifs with h
    · rfl
    · exfalso
      apply h
      unfold batchSelectedPath
      split_ifs with he
      · exact strlen_append_pos _ _ (by decide)
      · have : env.promptInput ≠ "" := he
        cases hp : env.promptInput with
        | mk l =>
          cases l with
          | nil => exact absurd hp this
          | cons c cs => simp [String.length]
  refine ⟨hstep, fun he => ?_, ?_⟩
  · rw [hstep]
    unfold batchSelectedPath
    rw [he]
    simp
  · rw [hstep]
    unfold batchSelectedPath
    split_ifs with he
    · exact strlen_append_pos _ _ (by decide)
    · cases hp : env.promptInput with
      | mk l =>
        cases l with
        | nil => exact absurd hp he
        | cons c cs => simp [String.length]

/-- Claim C8, witness: the amended theorem at a concrete environment with
no dialog and empty prompt input, giving the user-profile Desktop path. -/
theorem empty_prompt_gets_batch_desktop_default_witness :
    selectDirectory
        ⟨"C:\\U", "C:\\U", none, fun _ => false, true, true, ""⟩ =
      "C:\\U" ++ "\\Desktop" :=
  ((empty_prompt_gets_batch_desktop_default
      ⟨"C:\\U", "C:\\U", none, fun _ => false, true, true, ""⟩
      rfl rfl rfl (by decide)).2.1) rfl

/-- Claim C10: the native-dialog tier validates its result: a non-null
return is non-empty and exists on disk; a dialog output that trims to
empty, or whose trimmed path does not exist, yields null; and on null the
chain falls through to the text-prompt tier. -/
theorem showNativeFolderDialog_validates (env : SelEnv) :
    (∀ p, showNativeFolderDialog env = some p →
      0 < p.length ∧ env.pathExists p = true) ∧
    (∀ s, env.dialogResult = some s →
      (trimS s).length = 0 ∨ env.pathExists (trimS s) = false →
      showNativeFolderDialog env = none) ∧
    (showNativeFolderDialog env = none →
      selectDirectory env = getInteractiveInput env) := by
  refine ⟨fun p h => dialog_some_spec env p h, fun s hs hbad => ?_, fun h => ?_⟩
  · unfold showNativeFolderDialog
    rw [hs]
    simp only
    rcases hbad with hb | hb
    · rw [hb]
      simp
    · split_ifs with h1 h2
      · rw [hb] at h2
        cases h2
      · rfl
      · rfl
  · unfold selectDirectory
    rw [h]

/-- Claim C6: the archive search returns the first existing candidate of
the fixed order (a) executable directory under the expected name, (b)
working directory under the expected name, (c) the alternate guesses next
to the executable; it succeeds whenever any candidate exists; and it raises
the not-found error carrying the expected-name paths its message lists
exactly when every candidate is missing. -/
theorem resolveArchive_search_order (env : ResolveEnv) (afn : String) :
    (resolveArchive env afn =
      match (resolutionCandidates env afn).find? env.pathExists with
      | some p => Except.ok p
      | none => Except.error [winJoin env.exeDir afn, winJoin env.cwd afn]) ∧
    ((∃ c ∈ resolutionCandidates env afn, env.pathExists c = true) →
      ∃ r, resolveArchive env afn = Except.ok r) ∧
    ((∀ c ∈ resolutionCandidates env afn, env.pathExists c = false) ↔
      resolveArchive env afn =
        Except.error [winJoin env.exeDir afn, winJoin env.cwd afn]) := by
  have hz : resolveArchive env afn =
      (if env.pathExists (winJoin env.exeDir afn) then
        Except.ok (winJoin env.exeDir afn)
       else if env.pathExists (winJoin env.cwd afn) then
        Except.ok (winJoin env.cwd afn)
       else
        match (possibleNames afn).find?
            (fun nm => env.pathExists (winJoin env.exeDir nm)) with
        | some nm => Except.ok (winJoin env.exeDir nm)
        | none => Except.error
            [winJoin env.exeDir afn, winJoin env.cwd afn]) := rfl
  have hchar : resolveArchive env afn =
      match (resolutionCandidates env afn).find? env.pathExists with
      | some p => Except.ok p
      | none => Except.error [winJoin env.exeDir afn, winJoin env.cwd afn] := by
    unfold resolutionCandidates
    cases h0 : env.pathExists (winJoin env.exeDir afn) with
    | true =>
      rw [hz, if_pos h0, List.find?_cons_of_pos _ h0]
    | false =>
      have h0' : ¬ env.pathExists (winJoin env.exeDir afn) = true := by simp [h0]
      cases h1 : env.pathExists (winJoin env.cwd afn) with
      | true =>
        rw [hz, if_neg h0', if_pos h1, List.find?_cons_of_neg _ h0',
          List.find?_cons_of_pos _ h1]
      | false =>
        have h1' : ¬ env.pathExists (winJoin env.cwd afn) = true := by simp [h1]
        rw [hz, if_neg h0', if_neg h1', List.find?_cons_of_neg _ h0',
          List.find?_cons_of_neg _ h1', List.find?_map]
        cases hf : (possibleNames afn).find?
            (fun nm => env.pathExists (winJoin env.exeDir nm)) with
        | none =>
          have : (possibleNames afn).find?
              (env.pathExists ∘ winJoin env.exeDir) = none := hf
          rw [this]
          rfl
        | some nm =>
          have : (possibleNames afn).find?
              (env.pathExists ∘ winJoin env.exeDir) = some nm := hf
          rw [this]
          rfl
  refine ⟨hchar, ?_, ?_, ?_⟩
  · rintro ⟨c, hc, hpc⟩
    rw [hchar]
    cases hf : (resolutionCandidates env afn).find? env.pathExists with
    | some p => exact ⟨p, rfl⟩
    | none =>
      have := List.find?_eq_none.mp hf c hc
      rw [hpc] at this
      exact absurd rfl this
  · intro hall
    rw [hchar]
    have hf : (resolutionCandidates env afn).find? env.pathExists = none :=
      List.find?_eq_none.mpr (fun x hx => by rw [hall x hx]; exact Bool.false_ne_true)
    rw [hf]
  · intro he c hc
    cases h : env.pathExists c with
    | false => rfl
    | true =>
      exfalso
      rw [hchar] at he
      cases hf : (resolutionCandidates env afn).find? env.pathExists with
      | some p => rw [hf] at he; exact Except.noConfusion he
      | none =>
        have := List.find?_eq_none.mp hf c hc
        rw [h] at this
        exact this rfl

/-- Claim C6, witness: with the sidecar absent from both the executable
directory and the working directory under its expected name, but a
generically named files.zip present next to the executable, resolution
succeeds through the alternate-name guesses. -/
theorem resolveArchive_alternate_name_witness :
    resolveArchive ⟨"C:\\app", "C:\\work", fun s => s == "C:\\app\\files.zip"⟩
      "pkg_archive.zip" = Except.ok "C:\\app\\files.zip" := by
  have h := (resolveArchive_search_order
      ⟨"C:\\app", "C:\\work", fun s => s == "C:\\app\\files.zip"⟩ "pkg_archive.zip").1
  rw [h]
  rfl

/-- Adding one listed file appends exactly its claimed contribution. -/
theorem addFile_entries (root : FSNode) (st : ArchiveState) (f : List String) :
    (addFile root st f).entries = st.entries ++ fileEntriesOf root f := by
  unfold addFile fileEntriesOf
  split_ifs <;> simp

/-- Adding one listed folder appends exactly its claimed contribution. -/
theorem addDirectory_entries (root : FSNode) (st : ArchiveState) (d : List String) :
    (addDirectory root st d).entries = st.entries ++ folderEntriesOf root d := by
  unfold addDirectory folderEntriesOf
  split_ifs <;> simp

/-- Folding the file-adding step accumulates each file's contribution in
listed order. -/
theorem foldl_addFile_entries (root : FSNode) (files : List (List String))
    (st : ArchiveState) :
    (files.foldl (addFile root) st).entries =
      st.entries ++ files.flatMap (fileEntriesOf root) := by
  induction files generalizing st with
  | nil => simp
  | cons f fs ih =>
    rw [List.foldl_cons, ih, addFile_entries, List.flatMap_cons, List.append_assoc]

/-- Folding the folder-adding step accumulates each folder's contribution
in listed order. -/
theorem foldl_addDirectory_entries (root : FSNode) (folders : List (List String))
    (st : ArchiveState) :
    (folders.foldl (addDirectory root) st).entries =
      st.entries ++ folders.flatMap (folderEntriesOf root) := by
  induction folders generalizing st with
  | nil => simp
  | cons d ds ih =>
    rw [List.foldl_cons, ih, addDirectory_entries, List.flatMap_cons, List.append_assoc]

/-- Claim C7: the archive's entries are exactly one root-level entry named
by its basename for every existing listed file (all directory structure
above the file discarded), followed by, for every existing listed folder,
every contained file rooted under the folder's basename with its relative
structure preserved; missing paths contribute nothing. -/
theorem createArchive_entry_characterization
    (root : FSNode) (files folders : List (List String)) :
    (createArchive root files folders).entries =
      files.flatMap (fileEntriesOf root) ++ folders.flatMap (folderEntriesOf root) := by
  unfold createArchive
  rw [foldl_addDirectory_entries, foldl_addFile_entries]
  simp
